import Mathlib

/-!
Verification of the baudrate tool (baudrate.c / baudrate.h): a shallow
embedding of the auto-detection scorer in `read_serial`, the index
normalization in `update_serial_baud_rate`, the SIGALRM handler, the
manual-mode keypress loop in `cli`, and the terminating control paths of
`main`, together with theorems settling the specification's claims.
-/

namespace Baudrate

/-- Byte test from `read_serial` lines 317-318: printable ASCII
(`' '` = 0x20 through `'~'` = 0x7E) or line-feed (0x0A) or carriage-return
(0x0D). -/
def isPrintable (b : Nat) : Bool :=
  (32 ≤ b && b ≤ 126) || b == 10 || b == 13

/-- Whitespace cases of the `switch` in `read_serial` lines 324-326:
space, carriage-return, line-feed. -/
def isWhitespaceByte (b : Nat) : Bool :=
  b == 32 || b == 13 || b == 10

/-- Punctuation cases of the `switch` in `read_serial` lines 329-334:
`.` `,` `;` `:` `!` `?`. -/
def isPunctByte (b : Nat) : Bool :=
  b == 46 || b == 44 || b == 59 || b == 58 || b == 33 || b == 63

/-- Vowel cases of the `switch` in `read_serial` lines 337-346:
`a A e E i I o O u U`. -/
def isVowelByte (b : Nat) : Bool :=
  b == 97 || b == 65 || b == 101 || b == 69 || b == 105 || b == 73 ||
  b == 111 || b == 79 || b == 117 || b == 85

/-- The four counters `ascii`, `whitespace`, `punctuation`, `vowels` local to
`read_serial` (line 296). -/
structure ScorerState where
  ascii : Nat
  whitespace : Nat
  punctuation : Nat
  vowels : Nat
deriving DecidableEq

/-- All four counters start at zero (`read_serial` line 296). -/
def scorerInit : ScorerState := ⟨0, 0, 0, 0⟩

/-- One byte through `read_serial` lines 317-357: a printable byte increments
`ascii` and, when it falls in one of the three `switch` categories, that
category's counter; a non-printable byte zeroes all four counters. -/
def classifyByte (s : ScorerState) (b : Nat) : ScorerState :=
  if isPrintable b then
    { ascii := s.ascii + 1
      whitespace := if isWhitespaceByte b then s.whitespace + 1 else s.whitespace
      punctuation := if isPunctByte b then s.punctuation + 1 else s.punctuation
      vowels := if isVowelByte b then s.vowels + 1 else s.vowels }
  else
    scorerInit

/-- The confirmation test of `read_serial` line 359:
`ascii >= config.threshold && whitespace && vowels && punctuation`.
`config.threshold` is a C `int`, so it is modelled as `Int`. -/
def confirmCond (threshold : Int) (s : ScorerState) : Bool :=
  decide (threshold ≤ (s.ascii : Int)) && s.whitespace != 0 &&
    s.vowels != 0 && s.punctuation != 0

/-- The scorer state after feeding the bytes of `bs`, in order, one at a
time. -/
def runScorer (s : ScorerState) (bs : List Nat) : ScorerState :=
  bs.foldl classifyByte s

/-- Whether the auto-mode loop of `read_serial` reaches the break at line 363
("text confirmed") at some point while consuming `bs` byte by byte, with no
timer firing in between. -/
def scorerConfirms (threshold : Int) : ScorerState → List Nat → Bool
  | _, [] => false
  | s, b :: rest =>
    confirmCond threshold (classifyByte s b) ||
      scorerConfirms threshold (classifyByte s b) rest

/-- The maximal run of printable bytes at the end of `bs`: the spec's "current
unbroken run". -/
def trailingRun (bs : List Nat) : List Nat :=
  (bs.reverse.takeWhile isPrintable).reverse

/-- Written from the spec's wording of the verdict: the count of consecutive
printable bytes is at least the configured threshold, and the current unbroken
run has contained at least one whitespace byte, one punctuation byte and one
vowel. -/
def specVerdict (threshold : Int) (bs : List Nat) : Bool :=
  decide (threshold ≤ ((trailingRun bs).length : Int)) &&
    (trailingRun bs).any isWhitespaceByte &&
    (trailingRun bs).any isVowelByte &&
    (trailingRun bs).any isPunctByte

theorem runScorer_append (s : ScorerState) (bs : List Nat) (b : Nat) :
    runScorer s (bs ++ [b]) = classifyByte (runScorer s bs) b := by
  simp [runScorer, List.foldl_append]

theorem trailingRun_append_of_printable (bs : List Nat) (b : Nat)
    (h : isPrintable b = true) :
    trailingRun (bs ++ [b]) = trailingRun bs ++ [b] := by
  simp [trailingRun, List.takeWhile_cons, h]

theorem trailingRun_append_of_not_printable (bs : List Nat) (b : Nat)
    (h : isPrintable b = false) :
    trailingRun (bs ++ [b]) = [] := by
  simp [trailingRun, List.takeWhile_cons, h]

/-- The counters of `read_serial` after a byte sequence are the statistics of
its trailing printable run. -/
theorem runScorer_counts (bs : List Nat) :
    (runScorer scorerInit bs).ascii = (trailingRun bs).length ∧
    (runScorer scorerInit bs).whitespace = (trailingRun bs).countP isWhitespaceByte ∧
    (runScorer scorerInit bs).punctuation = (trailingRun bs).countP isPunctByte ∧
    (runScorer scorerInit bs).vowels = (trailingRun bs).countP isVowelByte := by
  induction bs using List.reverseRecOn with
  | nil => simp [runScorer, scorerInit, trailingRun]
  | append_singleton bs b ih =>
    obtain ⟨h1, h2, h3, h4⟩ := ih
    rw [runScorer_append]
    by_cases hb : isPrintable b = true
    · rw [trailingRun_append_of_printable bs b hb]
      simp only [classifyByte, hb, if_true, List.countP_append, List.length_append,
        List.countP_cons, List.countP_nil, List.length_cons, List.length_nil]
      refine ⟨by omega, ?_, ?_, ?_⟩ <;>
        · split <;> rename_i hcat <;> simp [hcat, h2, h3, h4]
    · rw [trailingRun_append_of_not_printable bs b (by simpa using hb)]
      simp [classifyByte, hb, scorerInit]

/-- The code's confirmation test coincides with the spec's wording of the
verdict after any byte sequence. -/
theorem confirmCond_eq_specVerdict (threshold : Int) (bs : List Nat) :
    confirmCond threshold (runScorer scorerInit bs) = specVerdict threshold bs := by
  obtain ⟨h1, h2, h3, h4⟩ := runScorer_counts bs
  rw [confirmCond, h1, h2, h3, h4, specVerdict]
  have e : ∀ (p : Nat → Bool) (l : List Nat), (l.countP p != 0) = l.any p := by
    intro p l
    rw [Bool.eq_iff_iff, bne_iff_ne, ne_eq, List.countP_eq_zero, List.any_eq_true]
    push_neg
    simp
  rw [e, e, e]

/-- The break at line 363 is reached somewhere along `bs` exactly when some
nonempty prefix of `bs` passes the confirmation test. -/
theorem scorerConfirms_iff_exists (threshold : Int) (s : ScorerState)
    (bs : List Nat) :
    scorerConfirms threshold s bs = true ↔
      ∃ p q, bs = p ++ q ∧ p ≠ [] ∧
        confirmCond threshold (runScorer s p) = true := by
  induction bs generalizing s with
  | nil =>
    simp only [scorerConfirms, Bool.false_eq_true, false_iff]
    rintro ⟨p, q, hpq, hne, _⟩
    exact hne (List.append_eq_nil.mp hpq.symm).1
  | cons b rest ih =>
    simp only [scorerConfirms, Bool.or_eq_true]
    constructor
    · rintro (hc | hc)
      · exact ⟨[b], rest, rfl, by simp, by simpa [runScorer] using hc⟩
      · obtain ⟨p, q, hpq, hne, hcond⟩ := (ih (classifyByte s b)).mp hc
        refine ⟨b :: p, q, by rw [hpq]; rfl, by simp, ?_⟩
        simpa [runScorer] using hcond
    · rintro ⟨p, q, hpq, hne, hcond⟩
      cases p with
      | nil => exact absurd rfl hne
      | cons b' p' =>
        rw [List.cons_append] at hpq
        injection hpq with hb hrest
        subst hb
        by_cases h1 : confirmCond threshold (classifyByte s b) = true
        · exact Or.inl h1
        · refine Or.inr ((ih (classifyByte s b)).mpr ⟨p', q, hrest, ?_, ?_⟩)
          · rintro rfl
            exact h1 (by simpa [runScorer] using hcond)
          · simpa [runScorer] using hcond

theorem takeWhile_eq_nil_of_all_false {p : Nat → Bool} {l : List Nat}
    (h : ∀ b ∈ l, p b = false) : l.takeWhile p = [] := by
  cases l with
  | nil => rfl
  | cons b t => simp [List.takeWhile_cons, h b (by simp)]

/-- C1: in auto mode, the "text confirmed" verdict test holds after a byte
sequence exactly when the trailing run of consecutive printable bytes has
length at least the threshold and has contained a whitespace byte, a
punctuation byte and a vowel; the verdict is reached along `bs` exactly when
some prefix satisfies this; and a sequence with no printable byte never
reaches it. -/
theorem claim1_scorer_verdict (threshold : Int) (bs : List Nat) :
    confirmCond threshold (runScorer scorerInit bs) = specVerdict threshold bs ∧
    (scorerConfirms threshold scorerInit bs = true ↔
      ∃ p q, bs = p ++ q ∧ specVerdict threshold p = true) ∧
    ((∀ b ∈ bs, isPrintable b = false) →
      scorerConfirms threshold scorerInit bs = false) := by
  have hiff : scorerConfirms threshold scorerInit bs = true ↔
      ∃ p q, bs = p ++ q ∧ specVerdict threshold p = true := by
    rw [scorerConfirms_iff_exists]
    constructor
    · rintro ⟨p, q, hpq, _, hcond⟩
      exact ⟨p, q, hpq, by rw [← confirmCond_eq_specVerdict]; exact hcond⟩
    · rintro ⟨p, q, hpq, hspec⟩
      have hne : p ≠ [] := by
        rintro rfl
        simp [specVerdict, trailingRun] at hspec
      exact ⟨p, q, hpq, hne, by rw [confirmCond_eq_specVerdict]; exact hspec⟩
  refine ⟨confirmCond_eq_specVerdict threshold bs, hiff, ?_⟩
  intro hall
  rw [Bool.eq_false_iff]
  intro hc
  obtain ⟨p, q, hpq, hspec⟩ := hiff.mp hc
  have hp : ∀ b ∈ p, isPrintable b = false := by
    intro b hb
    exact hall b (by rw [hpq]; exact List.mem_append_left q hb)
  have htr : trailingRun p = [] := by
    apply List.reverse_eq_nil_iff.mpr
    exact takeWhile_eq_nil_of_all_false (by
      intro b hb
      exact hp b (List.mem_reverse.mp hb))
  simp [specVerdict, htr] at hspec

/-- C2: a non-printable byte zeroes all four counters (`read_serial` lines
352-357), so the evidence gathered before it is discarded: running the scorer
over `xs ++ b :: ys` ends in the same state as running it over `ys` alone from
the initial state. -/
theorem claim2_nonprintable_resets (b : Nat) (hb : isPrintable b = false)
    (s : ScorerState) (xs ys : List Nat) :
    classifyByte s b = scorerInit ∧
    runScorer s (xs ++ b :: ys) = runScorer scorerInit ys := by
  have h1 : ∀ t : ScorerState, classifyByte t b = scorerInit := by
    intro t
    simp [classifyByte, hb]
  refine ⟨h1 s, ?_⟩
  show List.foldl classifyByte s (xs ++ b :: ys) = runScorer scorerInit ys
  rw [List.foldl_append, List.foldl_cons, h1]
  rfl

/-- Witness for C2 at byte 0 between bytes `'a'` and `'b'`. -/
theorem claim2_witness :
    isPrintable 0 = false ∧
    (classifyByte scorerInit 0 = scorerInit ∧
      runScorer scorerInit ([97] ++ 0 :: [98]) = runScorer scorerInit [98]) :=
  ⟨by decide, claim2_nonprintable_resets 0 (by decide) scorerInit [97] [98]⟩

/-- One row of the `BAUD_RATES` table of baudrate.h: the rate the `Bxxxx`
termios constant stands for, and the human-readable label `desc`. -/
structure BaudRateEntry where
  baud : Nat
  desc : String
deriving DecidableEq

/-- The `BAUD_RATES` table of baudrate.h lines 69-100 (the nine entries that
are not commented out). -/
def BAUD_RATES : List BaudRateEntry :=
  [⟨1200, "1200"⟩, ⟨1800, "1800"⟩, ⟨2400, "2400"⟩, ⟨4800, "4800"⟩,
   ⟨9600, "9600"⟩, ⟨19200, "19200"⟩, ⟨38400, "38400"⟩, ⟨57600, "57600"⟩,
   ⟨115200, "115200"⟩]

/-- Constant `BAUD_RATES_SIZE` of baudrate.h line 102. -/
def BAUD_RATES_SIZE : Nat := BAUD_RATES.length

/-- Constant `DEFAULT_BAUD_RATES_INDEX` of baudrate.h line 103:
`BAUD_RATES_SIZE - 1`. -/
def DEFAULT_BAUD_RATES_INDEX : Nat := BAUD_RATES_SIZE - 1

/-- The index normalization at the top of `update_serial_baud_rate` (lines
208-216), with the table size `n` as a parameter (`BAUD_RATES_SIZE` is a
compile-time constant of the table): a negative index becomes `n - 1`
(`DEFAULT_BAUD_RATES_INDEX`), an index at or past `n` becomes `0`. -/
def normalizeIndexN (n : Nat) (i : Int) : Int :=
  if i < 0 then (n : Int) - 1
  else if (n : Int) ≤ i then 0
  else i

/-- The normalization instantiated at the compiled table. -/
def normalizeIndex : Int → Int := normalizeIndexN BAUD_RATES_SIZE

/-- The events that change `config.baud_index`: the `++`/`--` of `cli` in
manual mode and the `--` of `sigalrm_handler` in auto mode, each followed by
the call to `update_serial_baud_rate` that normalizes the index before the
table is read. -/
inductive IndexEvent where
  | increase
  | decrease
  | timerFire
deriving DecidableEq

/-- One index-changing event followed by the normalization of
`update_serial_baud_rate`. -/
def indexStep (n : Nat) (i : Int) : IndexEvent → Int
  | .increase => normalizeIndexN n (i + 1)
  | .decrease => normalizeIndexN n (i - 1)
  | .timerFire => normalizeIndexN n (i - 1)

theorem normalizeIndexN_bounds (n : Nat) (hn : 0 < n) (i : Int) :
    0 ≤ normalizeIndexN n i ∧ normalizeIndexN n i < n := by
  unfold normalizeIndexN
  split
  · omega
  · split <;> omega

/-- C5: from a valid index, any sequence of increase, decrease and timer
events leaves the index used to read the table inside `[0, n-1]`: the
normalization of `update_serial_baud_rate` silently wraps an increment past
the top to `0` and a decrement past zero to `n - 1`. -/
theorem claim5_index_in_bounds (n : Nat) (hn : 0 < n) (i : Int)
    (hi : 0 ≤ i ∧ i < n) (evs : List IndexEvent) :
    0 ≤ evs.foldl (indexStep n) i ∧ evs.foldl (indexStep n) i < n := by
  induction evs generalizing i with
  | nil => simpa using hi
  | cons e rest ih =>
    rw [List.foldl_cons]
    refine ih (indexStep n i e) ?_
    cases e <;> exact normalizeIndexN_bounds n hn _

/-- Witness for C5: nine candidates, starting index 8, a mixed event
sequence. -/
theorem claim5_witness :
    0 < 9 ∧ ((0 : Int) ≤ 8 ∧ (8 : Int) < 9) ∧
    (0 ≤ List.foldl (indexStep 9) 8
        [IndexEvent.increase, IndexEvent.decrease, IndexEvent.timerFire] ∧
      List.foldl (indexStep 9) 8
        [IndexEvent.increase, IndexEvent.decrease, IndexEvent.timerFire] < 9) :=
  ⟨by decide, ⟨by decide, by decide⟩,
    claim5_index_in_bounds 9 (by decide) 8 ⟨by decide, by decide⟩
      [IndexEvent.increase, IndexEvent.decrease, IndexEvent.timerFire]⟩

/-- The globals `sigalrm_handler` touches: `config.baud_index` and
`config.timeout_count`. -/
structure CtrlState where
  baudIndex : Int
  timeoutCount : Nat
deriving DecidableEq

/-- One SIGALRM delivery (`sigalrm_handler` lines 520-531), over a table of
`n` rates with the configured wait period: the new control state, the number
of `update_serial_baud_rate` calls made, and the argument of the `alarm`
re-arm (`none` when `alarm` is not called). In auto mode the handler
increments `timeout_count`, decrements `baud_index` (normalized by the update
call), reapplies the rate once and re-arms the alarm with
`config.wait_period`; in manual mode the body is skipped. -/
def sigalrmHandler (manual : Bool) (n waitPeriod : Nat) (s : CtrlState) :
    CtrlState × Nat × Option Nat :=
  if manual then (s, 0, none)
  else ({ baudIndex := normalizeIndexN n (s.baudIndex - 1),
          timeoutCount := s.timeoutCount + 1 }, 1, some waitPeriod)

/-- C6: in auto mode each timer expiration decrements the index by exactly one
(wrapping below zero to `n - 1`), makes exactly one apply call, increments
`timeout_count` by one and re-arms the timer with the configured wait period;
with 3 candidates and wait period 1, three consecutive firings take the index
2 to 1 to 0 and then wrap to 2, each with one apply call. -/
theorem claim6_timer_expiration (n waitPeriod : Nat) (s : CtrlState) :
    ((sigalrmHandler false n waitPeriod s).1.baudIndex =
        normalizeIndexN n (s.baudIndex - 1) ∧
      (sigalrmHandler false n waitPeriod s).1.timeoutCount =
        s.timeoutCount + 1 ∧
      (sigalrmHandler false n waitPeriod s).2.1 = 1 ∧
      (sigalrmHandler false n waitPeriod s).2.2 = some waitPeriod) ∧
    (sigalrmHandler false 3 1 ⟨2, 0⟩ = (⟨1, 1⟩, 1, some 1) ∧
      sigalrmHandler false 3 1 ⟨1, 1⟩ = (⟨0, 2⟩, 1, some 1) ∧
      sigalrmHandler false 3 1 ⟨0, 2⟩ = (⟨2, 3⟩, 1, some 1)) :=
  ⟨⟨rfl, rfl, rfl, rfl⟩, by decide⟩

/-- C10: in manual mode a SIGALRM delivery changes nothing: the index and
`timeout_count` are untouched, `update_serial_baud_rate` is not called and
the alarm is not re-armed. -/
theorem claim10_manual_alarm_noop (n waitPeriod : Nat) (s : CtrlState) :
    sigalrmHandler true n waitPeriod s = (s, 0, none) := rfl

/-- One keypress of the manual-mode loop in `cli` (lines 256-281): the new
`baud_index` and whether `update_serial_baud_rate` was called. `u`, `U` and
`UP_ARROW` (`A`, 0x41, the final byte of the up-arrow sequence) increment;
`d`, `D` and `DOWN_ARROW` (`B`, 0x42) decrement; 0x1B and 0x5B (the two
leading bytes of an arrow escape sequence) hit the `continue` and skip the
update check; any other byte falls through with the index unchanged. The
update runs exactly when the saved index `b` differs from the new index. -/
def cliKeyStep (i : Int) (c : Nat) : Int × Bool :=
  if c == 117 || c == 85 || c == 65 then
    (i + 1, (i + 1) != i)
  else if c == 100 || c == 68 || c == 66 then
    (i - 1, (i - 1) != i)
  else if c == 27 || c == 91 then
    (i, false)
  else
    (i, i != i)

/-- C7: an increase gesture adds one to the index and triggers a reapply, a
decrease gesture subtracts one and triggers a reapply, the two leading bytes
of an arrow escape sequence are consumed without effect, any other byte
leaves the index unchanged without a reapply, and the reapply happens exactly
when the index changed. -/
theorem claim7_manual_keypress (i : Int) (c : Nat) :
    ((c = 117 ∨ c = 85 ∨ c = 65) → cliKeyStep i c = (i + 1, true)) ∧
    ((c = 100 ∨ c = 68 ∨ c = 66) → cliKeyStep i c = (i - 1, true)) ∧
    ((c = 27 ∨ c = 91) → cliKeyStep i c = (i, false)) ∧
    (c ∉ ([117, 85, 65, 100, 68, 66, 27, 91] : List Nat) →
      cliKeyStep i c = (i, false)) ∧
    ((cliKeyStep i c).2 = true ↔ (cliKeyStep i c).1 ≠ i) := by
  have hp : ((i + 1) != i) = true := by simp
  have hm : ((i - 1) != i) = true := by
    rw [bne_iff_ne]
    omega
  refine ⟨?_, ?_, ?_, ?_, ?_⟩
  · rintro (rfl | rfl | rfl) <;> simp [cliKeyStep, hp]
  · rintro (rfl | rfl | rfl) <;> simp [cliKeyStep, hm]
  · rintro (rfl | rfl) <;> simp [cliKeyStep]
  · intro hc
    simp only [List.mem_cons, List.not_mem_nil, or_false] at hc
    push_neg at hc
    obtain ⟨h1, h2, h3, h4, h5, h6, h7, h8⟩ := hc
    simp [cliKeyStep, h1, h2, h3, h4, h5, h6, h7, h8]
  · unfold cliKeyStep
    split
    · simp [hp]
    · split
      · simp [hm]
      · split <;> simp

/-- The state of the auto-mode detection system shared between `read_serial`
and `sigalrm_handler`: the scorer counters and `last_timeout_count` (locals of
`read_serial`), the global `config.timeout_count`, and whether the break at
line 363 ("text confirmed") has been reached. -/
structure AutoState where
  scorer : ScorerState
  lastTimeout : Nat
  timeoutCount : Nat
  confirmed : Bool
deriving DecidableEq

/-- Locals and globals start at zero (`read_serial` line 296, `main` line
28). -/
def autoInit : AutoState := ⟨scorerInit, 0, 0, false⟩

/-- The observable events of the auto-mode system: a SIGALRM firing (the baud
rate change) or one byte arriving at `read_serial`. -/
inductive AutoEvent where
  | timerFire
  | byteRead (b : Nat)
deriving DecidableEq

/-- One event of the auto-mode system. A timer firing runs `sigalrm_handler`
lines 524-530: it increments `timeout_count` and changes the baud rate (the
rate itself is tracked by `CtrlState`; here only the scorer-visible effect
matters). A byte read runs `read_serial` lines 315-372: classify the byte,
then the confirmation test at line 359, and only if that fails the
timeout-reset test at line 365, which zeroes the counters and records the
current `timeout_count`. After the break at line 363 the loop is left and the
alarm is disarmed, so further events change nothing. -/
def autoStep (threshold : Int) (s : AutoState) : AutoEvent → AutoState
  | .timerFire =>
    if s.confirmed then s
    else { s with timeoutCount := s.timeoutCount + 1 }
  | .byteRead b =>
    if s.confirmed then s
    else
      if confirmCond threshold (classifyByte s.scorer b) then
        { s with scorer := classifyByte s.scorer b, confirmed := true }
      else if s.lastTimeout < s.timeoutCount then
        { s with scorer := scorerInit, lastTimeout := s.timeoutCount }
      else
        { s with scorer := classifyByte s.scorer b }

/-- The auto-mode system run over a sequence of events from the initial
state. -/
def runAuto (threshold : Int) (events : List AutoEvent) : AutoState :=
  events.foldl (autoStep threshold) autoInit

/-- C4 counterexample: with threshold 2, after the bytes `a` and `.` a timer
firing changes the rate, and then the single whitespace byte read under the
new rate confirms — the test at line 359 runs before the reset at lines
365-372, so the two bytes read before the rate change count toward the
verdict — even though that byte alone does not confirm from a fresh scorer
state. -/
theorem claim4_counterexample :
    (runAuto 2 [AutoEvent.byteRead 97, AutoEvent.byteRead 46,
        AutoEvent.timerFire, AutoEvent.byteRead 32]).confirmed = true ∧
    scorerConfirms 2 scorerInit [32] = false := by decide

/-- C4 amended: the scorer reset that follows a baud-rate change is deferred
to the next byte read, and on that byte the confirmation test runs first:
when a timer has fired since the last reset, the next byte is classified
against the stale counters and confirms if they pass the test at line 359;
only otherwise are all counters zeroed (dropping that byte's own contribution
as well) and the firing acknowledged. -/
theorem claim4_lazy_reset (threshold : Int) (s : AutoState) (b : Nat)
    (hc : s.confirmed = false) (ht : s.lastTimeout < s.timeoutCount) :
    (confirmCond threshold (classifyByte s.scorer b) = true →
      autoStep threshold s (AutoEvent.byteRead b) =
        { s with scorer := classifyByte s.scorer b, confirmed := true }) ∧
    (confirmCond threshold (classifyByte s.scorer b) = false →
      autoStep threshold s (AutoEvent.byteRead b) =
        { s with scorer := scorerInit, lastTimeout := s.timeoutCount }) := by
  constructor <;> intro h <;> simp [autoStep, hc, h, ht]

/-- Witness for C4's amended statement at a concrete stale state. -/
theorem claim4_lazy_reset_witness :
    ((⟨⟨2, 1, 1, 1⟩, 0, 1, false⟩ : AutoState).confirmed = false ∧
      (⟨⟨2, 1, 1, 1⟩, 0, 1, false⟩ : AutoState).lastTimeout <
        (⟨⟨2, 1, 1, 1⟩, 0, 1, false⟩ : AutoState).timeoutCount) ∧
    ((confirmCond 2 (classifyByte (⟨2, 1, 1, 1⟩ : ScorerState) 32) = true →
      autoStep 2 ⟨⟨2, 1, 1, 1⟩, 0, 1, false⟩ (AutoEvent.byteRead 32) =
        ⟨classifyByte ⟨2, 1, 1, 1⟩ 32, 0, 1, true⟩) ∧
    (confirmCond 2 (classifyByte (⟨2, 1, 1, 1⟩ : ScorerState) 32) = false →
      autoStep 2 ⟨⟨2, 1, 1, 1⟩, 0, 1, false⟩ (AutoEvent.byteRead 32) =
        ⟨scorerInit, 1, 1, false⟩)) :=
  ⟨⟨by decide, by decide⟩,
    claim4_lazy_reset 2 ⟨⟨2, 1, 1, 1⟩, 0, 1, false⟩ 32 (by decide) (by decide)⟩

/-- The externally visible actions of `main` (and of `sigint_handler`, through
which both detection success and an operator interrupt terminate). -/
inductive MainAction where
  | reportOpenFailure
  | configurePort
  | applyBaud (idx : Int)
  | spawnReader
  | runCleanup
  | exitFailure
  | exitSuccess
deriving DecidableEq

/-- Why the running program stopped once the reader thread was up: the scorer
confirming text (`read_serial` raises SIGINT at line 362) or the operator
pressing Ctrl+C; both deliver SIGINT. -/
inductive StopCause where
  | detection
  | interrupt
deriving DecidableEq

/-- The terminating control paths of `main` (lines 88-143) together with
`sigint_handler` (lines 512-517), as the sequence of actions performed. Open
failure returns through `end` at once. Otherwise `main` saves the port state
and configures it, applies the default index, and spawns the reader; if the
spawn fails it falls through to `cleanup()` at line 140 and returns
`EXIT_FAILURE`; if it succeeds, `cli()` never returns and the process ends in
`sigint_handler`, which runs `cleanup()` once and calls
`exit(EXIT_SUCCESS)` — for detection success and operator interrupt alike. -/
def mainTrace (openOk spawnOk : Bool) (stop : StopCause) : List MainAction :=
  if !openOk then
    [.reportOpenFailure, .exitFailure]
  else if !spawnOk then
    [.configurePort, .applyBaud (normalizeIndex DEFAULT_BAUD_RATES_INDEX),
     .runCleanup, .exitFailure]
  else
    match stop with
    | .detection =>
      [.configurePort, .applyBaud (normalizeIndex DEFAULT_BAUD_RATES_INDEX),
       .spawnReader, .runCleanup, .exitSuccess]
    | .interrupt =>
      [.configurePort, .applyBaud (normalizeIndex DEFAULT_BAUD_RATES_INDEX),
       .spawnReader, .runCleanup, .exitSuccess]

/-- C3: on every terminating path that captured the port state (open
succeeded) — reader-spawn failure, detection success, operator interrupt —
cleanup runs exactly once, and on the only path that exits without cleanup
the state was never captured. -/
theorem claim3_cleanup_exactly_once (spawnOk : Bool) (stop : StopCause) :
    (mainTrace true spawnOk stop).count MainAction.runCleanup = 1 ∧
    (mainTrace false spawnOk stop).count MainAction.runCleanup = 0 ∧
    MainAction.configurePort ∉ mainTrace false spawnOk stop := by
  cases spawnOk <;> cases stop <;> decide

/-- C8: the default index is the last row of the table, that row is the
highest rate (115200), and on every path past a successful open the rate at
the default index is applied before the reader is spawned or any loop is
entered. -/
theorem claim8_default_index (spawnOk : Bool) (stop : StopCause) :
    DEFAULT_BAUD_RATES_INDEX = BAUD_RATES.length - 1 ∧
    BAUD_RATES[DEFAULT_BAUD_RATES_INDEX]? = some ⟨115200, "115200"⟩ ∧
    (∀ e ∈ BAUD_RATES, e.baud ≤ 115200) ∧
    (mainTrace true spawnOk stop).take 2 =
      [.configurePort, .applyBaud (DEFAULT_BAUD_RATES_INDEX : Int)] ∧
    (mainTrace true true stop).take 3 =
      [.configurePort, .applyBaud (DEFAULT_BAUD_RATES_INDEX : Int),
       .spawnReader] := by
  cases spawnOk <;> cases stop <;> decide

/-- C9: when the open fails, `main` reports the failure and returns
`EXIT_FAILURE` at once: no port configuration, no baud-rate application, no
reader spawn and no cleanup happen on that path. -/
theorem claim9_open_failure (spawnOk : Bool) (stop : StopCause) :
    mainTrace false spawnOk stop =
      [MainAction.reportOpenFailure, MainAction.exitFailure] ∧
    MainAction.configurePort ∉ mainTrace false spawnOk stop ∧
    (∀ i, MainAction.applyBaud i ∉ mainTrace false spawnOk stop) ∧
    MainAction.spawnReader ∉ mainTrace false spawnOk stop ∧
    MainAction.runCleanup ∉ mainTrace false spawnOk stop := by
  refine ⟨?_, ?_, ?_, ?_, ?_⟩ <;> simp [mainTrace]

end Baudrate
